import Mathlib

/-!
Verification of the gbox SDK archive transfer engine
(`gbox/models/boxes.py`: `Box.get_archive`, `Box.put_archive`, `Box.copy`).

The embedding models the local filesystem as an explicit record of files and
directories, tar payloads as lists of parsed members (the tar codec itself is
an external library), and the remote archive API as the pair of answers it
would return for the requested path, together with an explicit trace of the
network calls issued.
-/

namespace GBox

/-- POSIX basename as used by `os.path.basename`: the suffix of the path
after its last slash. -/
def basename (p : String) : String :=
  String.mk ((p.toList.reverse.takeWhile (fun c => c != '/')).reverse)

/-- POSIX dirname as used by `os.path.dirname`: everything before the last
slash, with trailing slashes stripped unless the prefix consists only of
slashes. -/
def dirname (p : String) : String :=
  let chars := p.toList
  let base := (chars.reverse.takeWhile (fun c => c != '/')).reverse
  let head := chars.take (chars.length - base.length)
  if head.isEmpty then ""
  else if head.all (fun c => c == '/') then String.mk head
  else String.mk ((head.reverse.dropWhile (fun c => c == '/')).reverse)

/-- ASCII lowercasing of one character; models Python `str.lower` on the
characters relevant to the `box:` marker check. -/
def asciiLower (c : Char) : Char :=
  if 'A' ≤ c ∧ c ≤ 'Z' then Char.ofNat (c.toNat + 32) else c

/-- `path.lower().startswith("box:")` from `Box.put_archive`. -/
def lowerStartsWithBox (p : String) : Bool :=
  match p.toList.map asciiLower with
  | 'b' :: 'o' :: 'x' :: ':' :: _ => true
  | _ => false

/-- Python `s.endswith(suffix)`: character-wise suffix test. -/
def strEndsWith (s suffix : String) : Bool :=
  List.isPrefixOf suffix.toList.reverse s.toList.reverse

/-- The `box:` marker strip performed at the end of `Box.put_archive`:
`if api_path.lower().startswith("box:"): api_path = api_path[4:]`. -/
def stripBoxMarker (p : String) : String :=
  if lowerStartsWithBox p then String.mk (p.toList.drop 4) else p

/-- Transport-level failures surfaced by the remote archive API
(`NotFound` or a generic `APIError` with a status code). -/
inductive RemoteErr
  | notFound
  | apiError (status : Nat)
deriving DecidableEq, Repr

/-- Error kinds raised by the archive transfer engine.  Each constructor
corresponds to one `raise` site in `gbox/models/boxes.py`. -/
inductive GError
  | remote (e : RemoteErr)
  | emptyArchive
  | ambiguousArchive
  | remoteIsDirectory
  | memberNotFound
  | localPathMissing
  | isADirectory
  | typeError
  | ambiguousDirection
deriving DecidableEq, Repr

/-- Local filesystem state: regular files with byte contents, plus the set of
existing directories. -/
structure LocalFS where
  files : List (String × List Nat)
  dirs : List String
deriving DecidableEq, Repr

def LocalFS.readFile (fs : LocalFS) (p : String) : Option (List Nat) :=
  (fs.files.find? (fun e => e.fst == p)).map Prod.snd

def LocalFS.isFile (fs : LocalFS) (p : String) : Bool :=
  fs.files.any (fun e => e.fst == p)

def LocalFS.isDir (fs : LocalFS) (p : String) : Bool :=
  fs.dirs.contains p

/-- `os.path.exists`: true for files and for directories. -/
def LocalFS.pathExists (fs : LocalFS) (p : String) : Bool :=
  fs.isFile p || fs.isDir p

/-- `os.makedirs(d, exist_ok=True)`: record the directory as existing. -/
def LocalFS.makedirs (fs : LocalFS) (d : String) : LocalFS :=
  { fs with dirs := if fs.dirs.contains d then fs.dirs else d :: fs.dirs }

/-- `open(p, "wb")` followed by writing `content`: replaces any previous file
at `p`. -/
def LocalFS.writeFile (fs : LocalFS) (p : String) (content : List Nat) : LocalFS :=
  { fs with files := (p, content) :: fs.files.filter (fun e => e.fst != p) }

/-- A parsed tar entry is either a directory entry or a file entry. -/
inductive TarType
  | dirEntry
  | fileEntry
deriving DecidableEq, Repr

/-- A parsed tar member, as enumerated by `tar.getmembers()`; `content` is the
byte content returned by `tar.extractfile` for file entries. -/
structure TarMember where
  name : String
  ttype : TarType
  content : List Nat
deriving DecidableEq, Repr

def TarMember.isfile (m : TarMember) : Bool :=
  match m.ttype with
  | TarType.fileEntry => true
  | TarType.dirEntry => false

def TarMember.isdir (m : TarMember) : Bool :=
  match m.ttype with
  | TarType.fileEntry => false
  | TarType.dirEntry => true

/-- Tar payload sent to the remote extract endpoint: either caller-supplied
raw bytes, or an archive packed in memory from a local file. -/
inductive TarPayload
  | raw (bytes : List Nat)
  | packed (entries : List TarMember)
deriving DecidableEq, Repr

/-- One network call against the remote archive API (spec-modelled pass-through
per the external interface contract: the path travels verbatim). -/
inductive ApiCall
  | headCall (path : String)
  | getCall (path : String)
  | extractCall (path : String) (payload : TarPayload)
deriving DecidableEq, Repr

/-- The stat blob returned by the remote metadata endpoint (`head_archive`). -/
structure ArchiveStat where
  name : String
  size : Nat
  mode : Nat
  ftype : String
deriving DecidableEq, Repr

/-- Value returned by `Box.get_archive`: an error, the raw tar stream with the
stat (`local_path` omitted), or `(None, stat)` after saving to disk. -/
inductive GetResult
  | failed (e : GError)
  | streamed (members : List TarMember) (stats : ArchiveStat)
  | saved (stats : ArchiveStat)
deriving DecidableEq, Repr

structure GetOutcome where
  result : GetResult
  fs : LocalFS
  calls : List ApiCall
deriving DecidableEq, Repr

/-- The member-search loop of `Box.get_archive`: first file member whose name
equals `tf` or ends with `"/" ++ tf`; the second arm repeats the single-member
exact-name check of the source loop. -/
def findMember (total : Nat) (tf : String) : List TarMember → Option TarMember
  | [] => none
  | m :: rest =>
    if m.isfile && (m.name == tf || strEndsWith m.name ("/" ++ tf)) then some m
    else if m.isfile && total == 1 && m.name == tf then some m
    else findMember total tf rest

/-- The accepted multi-member special case of `Box.get_archive`: exactly two
members, a directory entry followed by a file entry named `tf`. -/
def specialPair (members : List TarMember) (tf : String) : Bool :=
  match members with
  | [a, b] => a.isdir && b.isfile && b.name == tf
  | _ => false

/-- `Box.get_archive(path, local_path)`.  `headRes` and `getRes` are the
answers the remote API returns for `path` on the metadata and data-fetch
endpoints; the outcome records the resulting local filesystem and the trace
of network calls actually issued. -/
def getArchive (headRes : Except RemoteErr ArchiveStat)
    (getRes : Except RemoteErr (List TarMember)) (fs : LocalFS)
    (path : String) (localPath : Option String) : GetOutcome :=
  match headRes with
  | Except.error e => ⟨GetResult.failed (GError.remote e), fs, [ApiCall.headCall path]⟩
  | Except.ok stats =>
    match getRes with
    | Except.error e =>
        ⟨GetResult.failed (GError.remote e), fs,
          [ApiCall.headCall path, ApiCall.getCall path]⟩
    | Except.ok members =>
      match localPath with
      | none =>
          ⟨GetResult.streamed members stats, fs,
            [ApiCall.headCall path, ApiCall.getCall path]⟩
      | some lp =>
        let calls := [ApiCall.headCall path, ApiCall.getCall path]
        let localDir := dirname lp
        let fs1 := if localDir == "" then fs else fs.makedirs localDir
        match members with
        | [] => ⟨GetResult.failed GError.emptyArchive, fs1, calls⟩
        | m0 :: rest =>
          let tf := basename path
          if 1 < (m0 :: rest).length ∧ specialPair (m0 :: rest) tf = false then
            ⟨GetResult.failed GError.ambiguousArchive, fs1, calls⟩
          else
            match findMember (m0 :: rest).length tf (m0 :: rest) with
            | some tm => ⟨GetResult.saved stats, fs1.writeFile lp tm.content, calls⟩
            | none =>
              if m0.isdir then ⟨GetResult.failed GError.remoteIsDirectory, fs1, calls⟩
              else ⟨GetResult.failed GError.memberNotFound, fs1, calls⟩

/-- The `data` argument of `Box.put_archive`: raw tar bytes, an open binary
reader, a local path, or any other (unsupported) value. -/
inductive PutData
  | rawBytes (b : List Nat)
  | reader (b : List Nat)
  | localPath (p : String)
  | other
deriving DecidableEq, Repr

inductive PutResult
  | failed (e : GError)
  | uploaded
deriving DecidableEq, Repr

structure PutOutcome where
  result : PutResult
  calls : List ApiCall
deriving DecidableEq, Repr

/-- `Box.put_archive(path, data)`.  On success the single network call is the
remote extract with the marker-stripped path and the tar payload; every error
is raised before any network call. -/
def putArchive (fs : LocalFS) (path : String) (data : PutData) : PutOutcome :=
  let payloadE : Except GError TarPayload :=
    match data with
    | PutData.rawBytes b => Except.ok (TarPayload.raw b)
    | PutData.reader b => Except.ok (TarPayload.raw b)
    | PutData.localPath p =>
      if !(fs.pathExists p) then Except.error GError.localPathMissing
      else if fs.isDir p then Except.error GError.isADirectory
      else
        match fs.readFile p with
        | some content =>
            Except.ok (TarPayload.packed [⟨basename p, TarType.fileEntry, content⟩])
        | none => Except.error GError.localPathMissing
    | PutData.other => Except.error GError.typeError
  match payloadE with
  | Except.error e => ⟨PutResult.failed e, []⟩
  | Except.ok payload =>
      ⟨PutResult.uploaded, [ApiCall.extractCall (stripBoxMarker path) payload]⟩

/-- The target-directory existence check of `Box.copy`:
`os.path.exists(os.path.dirname(target)) if os.path.dirname(target) else True`. -/
def targetDirExistsLocal (fs : LocalFS) (target : String) : Bool :=
  let td := dirname target
  if td == "" then true else fs.pathExists td

/-- The routing decision of `Box.copy`; both `ValueError` branches of the
source (both sides local / neither side local) are the ambiguous-direction
error kind. -/
inductive CopyRoute
  | upload (target source : String)
  | download (source target : String)
  | ambiguousDirection
deriving DecidableEq, Repr

/-- The direction-inference step of `Box.copy(source, target)`. -/
def copyRoute (fs : LocalFS) (source target : String) : CopyRoute :=
  let sourceIsLocal := fs.pathExists source
  if sourceIsLocal && !(targetDirExistsLocal fs target) then
    CopyRoute.upload target source
  else if !sourceIsLocal && targetDirExistsLocal fs target then
    CopyRoute.download source target
  else CopyRoute.ambiguousDirection

inductive OpResult
  | ok
  | failed (e : GError)
deriving DecidableEq, Repr

structure CopyOutcome where
  result : OpResult
  fs : LocalFS
  calls : List ApiCall
deriving DecidableEq, Repr

/-- `Box.copy(source, target)` end to end: route, then run the transfer.  An
upload is `put_archive(path=target, data=source)`; a download is
`get_archive(path=source, local_path=target)`; the ambiguous branches issue
no network call. -/
def copyRun (headRes : Except RemoteErr ArchiveStat)
    (getRes : Except RemoteErr (List TarMember)) (fs : LocalFS)
    (source target : String) : CopyOutcome :=
  match copyRoute fs source target with
  | CopyRoute.upload t s =>
    let out := putArchive fs t (PutData.localPath s)
    ⟨(match out.result with
       | PutResult.uploaded => OpResult.ok
       | PutResult.failed e => OpResult.failed e), fs, out.calls⟩
  | CopyRoute.download s t =>
    let out := getArchive headRes getRes fs s (some t)
    ⟨(match out.result with
       | GetResult.failed e => OpResult.failed e
       | _ => OpResult.ok), out.fs, out.calls⟩
  | CopyRoute.ambiguousDirection => ⟨OpResult.failed GError.ambiguousDirection, fs, []⟩

end GBox

namespace GBox

/- Concrete fixtures used by witnesses and counterexamples. -/

def statReport : ArchiveStat := ⟨"report.txt", 42, 420, "file"⟩

def contentReport : List Nat := List.replicate 42 7

def memReport : TarMember := ⟨"report.txt", TarType.fileEntry, contentReport⟩

def fsTmp : LocalFS := ⟨[("/tmp/out.txt", [9, 9])], ["/tmp"]⟩

def membersBad : List TarMember :=
  [⟨"x/", TarType.dirEntry, []⟩, ⟨"x/other.txt", TarType.fileEntry, [1]⟩,
   ⟨"x/more.txt", TarType.fileEntry, [2]⟩]

def membersGood : List TarMember := [⟨"x/", TarType.dirEntry, []⟩, memReport]

def statDir : ArchiveStat := ⟨"dir", 0, 493, "directory"⟩

def membersDirPair : List TarMember :=
  [⟨"dir/", TarType.dirEntry, []⟩, ⟨"dir/child.txt", TarType.fileEntry, [104, 105]⟩]

def fsCopy : LocalFS := ⟨[("/tmp/b.txt", [10, 20])], ["/tmp"]⟩

def fsDirLocal : LocalFS := ⟨[], ["/tmp", "/tmp/somedir"]⟩

def membersB : List TarMember := [⟨"b.txt", TarType.fileEntry, [10, 20]⟩]

/- Helper lemmas shared by the claim theorems. -/

theorem TarMember.isdir_iff (m : TarMember) : m.isdir = true ↔ m.ttype = TarType.dirEntry := by
  cases h : m.ttype <;> simp [TarMember.isdir, h]

theorem TarMember.isfile_iff (m : TarMember) : m.isfile = true ↔ m.ttype = TarType.fileEntry := by
  cases h : m.ttype <;> simp [TarMember.isfile, h]

/-- Whatever the remote answers, the first network call of `get_archive` is
the metadata request for the requested path. -/
theorem getArchive_calls_head_aux (headRes : Except RemoteErr ArchiveStat)
    (getRes : Except RemoteErr (List TarMember)) (fs : LocalFS)
    (path : String) (lp : Option String) :
    (getArchive headRes getRes fs path lp).calls.head? = some (ApiCall.headCall path) := by
  cases headRes with
  | error e => simp [getArchive]
  | ok stats =>
    cases getRes with
    | error e => simp [getArchive]
    | ok members =>
      cases lp with
      | none => simp [getArchive]
      | some l =>
        cases members with
        | nil => simp [getArchive]
        | cons m0 rest =>
          simp only [getArchive]
          split
          · rfl
          · split
            · rfl
            · split <;> rfl

theorem makedirs_contains (fs : LocalFS) (d : String) :
    (fs.makedirs d).dirs.contains d = true := by
  unfold LocalFS.makedirs
  cases hc : fs.dirs.contains d with
  | true =>
    have hm : d ∈ fs.dirs := by simpa using hc
    simp [hc, hm]
  | false => simp [hc]

/-- Claim C1: with `local_path` provided, an empty fetched archive fails with
the EmptyArchive kind; a multi-entry archive is accepted only in the exact
case of two entries, a directory entry followed by a file entry named after
the basename of the remote path, and every other multi-entry archive fails
with the AmbiguousArchive kind. -/
theorem getArchive_local_member_policy
    (stats : ArchiveStat) (members : List TarMember) (fs : LocalFS) (path lp : String) :
    (members = [] →
      (getArchive (Except.ok stats) (Except.ok members) fs path (some lp)).result =
        GetResult.failed GError.emptyArchive)
    ∧ (1 < members.length → specialPair members (basename path) = false →
      (getArchive (Except.ok stats) (Except.ok members) fs path (some lp)).result =
        GetResult.failed GError.ambiguousArchive)
    ∧ (∀ d f, members = [d, f] → d.isdir = true → f.isfile = true →
        f.name = basename path →
      (getArchive (Except.ok stats) (Except.ok members) fs path (some lp)).result =
        GetResult.saved stats) := by
  refine ⟨?_, ?_, ?_⟩
  · intro h
    subst h
    simp [getArchive]
  · intro h1 h2
    cases members with
    | nil => simp at h1
    | cons m0 rest =>
      simp only [getArchive]
      rw [if_pos ⟨h1, h2⟩]
  · intro d f h hd hf hn
    subst h
    have hd' := (TarMember.isdir_iff d).mp hd
    have hf' := (TarMember.isfile_iff f).mp hf
    simp [getArchive, specialPair, findMember, TarMember.isfile, TarMember.isdir, hd', hf', hn]

theorem getArchive_local_member_policy_witness :
    ((getArchive (Except.ok statReport) (Except.ok ([] : List TarMember)) fsTmp
        "/x/report.txt" (some "/tmp/out.txt")).result =
      GetResult.failed GError.emptyArchive)
    ∧ ((getArchive (Except.ok statReport) (Except.ok membersBad) fsTmp
        "/x/report.txt" (some "/tmp/out.txt")).result =
      GetResult.failed GError.ambiguousArchive)
    ∧ ((getArchive (Except.ok statReport) (Except.ok membersGood) fsTmp
        "/x/report.txt" (some "/tmp/out.txt")).result =
      GetResult.saved statReport) :=
  ⟨(getArchive_local_member_policy statReport [] fsTmp "/x/report.txt" "/tmp/out.txt").1 rfl,
   (getArchive_local_member_policy statReport membersBad fsTmp "/x/report.txt" "/tmp/out.txt").2.1
     (by decide) (by decide),
   (getArchive_local_member_policy statReport membersGood fsTmp "/x/report.txt" "/tmp/out.txt").2.2
     ⟨"x/", TarType.dirEntry, []⟩ memReport rfl (by decide) (by decide) (by decide)⟩

/-- Claim C2: when a matching file member is found, `get_archive` with
`local_path` writes exactly that member's content to `local_path`,
overwriting any existing file there, and returns `(None, stat)` with the stat
obtained from the metadata call. -/
theorem getArchive_saves_matched_content
    (stats : ArchiveStat) (members : List TarMember) (fs : LocalFS) (path lp : String)
    (tm : TarMember)
    (hne : members ≠ [])
    (hgate : 1 < members.length → specialPair members (basename path) = true)
    (hfind : findMember members.length (basename path) members = some tm) :
    (getArchive (Except.ok stats) (Except.ok members) fs path (some lp)).result =
      GetResult.saved stats
    ∧ (getArchive (Except.ok stats) (Except.ok members) fs path (some lp)).fs.readFile lp =
      some tm.content := by
  cases members with
  | nil => exact absurd rfl hne
  | cons m0 rest =>
    simp only [getArchive]
    rw [if_neg]
    · rw [hfind]
      refine ⟨rfl, ?_⟩
      simp [LocalFS.readFile, LocalFS.writeFile]
    · intro hcon
      have := hgate hcon.1
      rw [this] at hcon
      exact absurd hcon.2 (by simp)

theorem getArchive_saves_matched_content_witness :
    ((getArchive (Except.ok statReport) (Except.ok [memReport]) fsTmp
        "/x/report.txt" (some "/tmp/out.txt")).result = GetResult.saved statReport)
    ∧ ((getArchive (Except.ok statReport) (Except.ok [memReport]) fsTmp
        "/x/report.txt" (some "/tmp/out.txt")).fs.readFile "/tmp/out.txt" =
      some memReport.content) :=
  getArchive_saves_matched_content statReport [memReport] fsTmp "/x/report.txt" "/tmp/out.txt"
    memReport (by decide) (by decide) (by decide)

end GBox

namespace GBox

/-- Claim C3: `copy` routes by local existence: local source with a missing
local target parent directory uploads via `put_archive(target, source)`; a
non-local source with an existing local target parent directory downloads via
`get_archive(source, local_path=target)`; when both conditions agree the call
fails with the ambiguous-direction kind and performs neither transfer. -/
theorem copy_routes_by_local_existence
    (headRes : Except RemoteErr ArchiveStat) (getRes : Except RemoteErr (List TarMember))
    (fs : LocalFS) (source target : String) :
    (fs.pathExists source = true → targetDirExistsLocal fs target = false →
      copyRoute fs source target = CopyRoute.upload target source)
    ∧ (fs.pathExists source = false → targetDirExistsLocal fs target = true →
      copyRoute fs source target = CopyRoute.download source target)
    ∧ (fs.pathExists source = targetDirExistsLocal fs target →
      copyRoute fs source target = CopyRoute.ambiguousDirection
      ∧ copyRun headRes getRes fs source target =
          ⟨OpResult.failed GError.ambiguousDirection, fs, []⟩) := by
  refine ⟨?_, ?_, ?_⟩
  · intro h1 h2
    simp [copyRoute, h1, h2]
  · intro h1 h2
    simp [copyRoute, h1, h2]
  · intro h
    have hr : copyRoute fs source target = CopyRoute.ambiguousDirection := by
      cases hb : fs.pathExists source with
      | true =>
        rw [hb] at h
        simp [copyRoute, hb, ← h]
      | false =>
        rw [hb] at h
        simp [copyRoute, hb, ← h]
    exact ⟨hr, by simp [copyRun, hr]⟩

theorem copy_routes_by_local_existence_witness :
    (copyRoute fsCopy "/tmp/b.txt" "box:/a/" = CopyRoute.upload "box:/a/" "/tmp/b.txt")
    ∧ (copyRoute fsCopy "/a/b.txt" "/tmp/c.txt" = CopyRoute.download "/a/b.txt" "/tmp/c.txt")
    ∧ (copyRoute fsCopy "/tmp/b.txt" "/tmp/c.txt" = CopyRoute.ambiguousDirection
      ∧ copyRun (Except.error RemoteErr.notFound) (Except.ok membersB) fsCopy
          "/tmp/b.txt" "/tmp/c.txt" =
        ⟨OpResult.failed GError.ambiguousDirection, fsCopy, []⟩) :=
  ⟨((copy_routes_by_local_existence (Except.error RemoteErr.notFound) (Except.ok membersB)
      fsCopy "/tmp/b.txt" "box:/a/").1 (by decide) (by decide)),
   ((copy_routes_by_local_existence (Except.error RemoteErr.notFound) (Except.ok membersB)
      fsCopy "/a/b.txt" "/tmp/c.txt").2.1 (by decide) (by decide)),
   ((copy_routes_by_local_existence (Except.error RemoteErr.notFound) (Except.ok membersB)
      fsCopy "/tmp/b.txt" "/tmp/c.txt").2.2 (by decide))⟩

/-- Claim C4 (divergence witness): `copy(source="box:/a/b.txt",
target="/tmp/b.txt")` routes to a download, but the remote path handed to the
metadata endpoint keeps the `box:` marker — it is `"box:/a/b.txt"`, not the
stripped `"/a/b.txt"` the claim (and the repository's own e2e copy test)
require. -/
theorem copy_marker_download_unstripped
    (headRes : Except RemoteErr ArchiveStat) (getRes : Except RemoteErr (List TarMember)) :
    (copyRun headRes getRes fsTmp "box:/a/b.txt" "/tmp/b.txt").calls.head? =
      some (ApiCall.headCall "box:/a/b.txt")
    ∧ ApiCall.headCall "box:/a/b.txt" ≠ ApiCall.headCall "/a/b.txt" := by
  have hr : copyRoute fsTmp "box:/a/b.txt" "/tmp/b.txt" =
      CopyRoute.download "box:/a/b.txt" "/tmp/b.txt" := by decide
  refine ⟨?_, by decide⟩
  simp only [copyRun, hr]
  exact getArchive_calls_head_aux headRes getRes fsTmp "box:/a/b.txt" (some "/tmp/b.txt")

/-- Claim C5: `put_archive` on a local directory path fails with the
IsADirectory kind and issues no network call. -/
theorem putArchive_directory_rejected
    (fs : LocalFS) (path p : String) (h : fs.isDir p = true) :
    putArchive fs path (PutData.localPath p) = ⟨PutResult.failed GError.isADirectory, []⟩ := by
  have hex : fs.pathExists p = true := by simp [LocalFS.pathExists, h]
  simp [putArchive, hex, h]

theorem putArchive_directory_rejected_witness :
    putArchive fsDirLocal "/data" (PutData.localPath "/tmp/somedir") =
      ⟨PutResult.failed GError.isADirectory, []⟩ :=
  putArchive_directory_rejected fsDirLocal "/data" "/tmp/somedir" (by decide)

/-- Claim C6 (counterexample): `put_archive("/", local file)` is NOT rejected:
it uploads, issuing the extract network call against the root path. -/
theorem putArchive_root_counterexample :
    (putArchive fsCopy "/" (PutData.localPath "/tmp/b.txt")).result = PutResult.uploaded
    ∧ (putArchive fsCopy "/" (PutData.localPath "/tmp/b.txt")).calls =
        [ApiCall.extractCall "/" (TarPayload.packed [⟨"b.txt", TarType.fileEntry, [10, 20]⟩])] :=
  ⟨by decide, by decide⟩

/-- Claim C6 (amended): `put_archive` performs no root-path validation — for
every local file, uploading it to the remote root path proceeds to the
extract-archive network call with path `"/"` instead of being rejected. -/
theorem putArchive_root_no_rejection
    (fs : LocalFS) (p : String) (content : List Nat)
    (hfile : fs.readFile p = some content) (hdir : fs.isDir p = false) :
    putArchive fs "/" (PutData.localPath p) =
      ⟨PutResult.uploaded,
        [ApiCall.extractCall "/" (TarPayload.packed [⟨basename p, TarType.fileEntry, content⟩])]⟩ := by
  have hf : fs.isFile p = true := by
    unfold LocalFS.readFile at hfile
    unfold LocalFS.isFile
    cases hq : fs.files.find? (fun e => e.fst == p) with
    | none => rw [hq] at hfile; simp at hfile
    | some a =>
      have hm := List.mem_of_find?_eq_some hq
      have hp := List.find?_some hq
      exact List.any_eq_true.mpr ⟨a, hm, hp⟩
  have hex : fs.pathExists p = true := by simp [LocalFS.pathExists, hf]
  have hstrip : stripBoxMarker "/" = "/" := by decide
  simp [putArchive, hex, hdir, hfile, hstrip]

theorem putArchive_root_no_rejection_witness :
    putArchive fsCopy "/" (PutData.localPath "/tmp/b.txt") =
      ⟨PutResult.uploaded,
        [ApiCall.extractCall "/"
          (TarPayload.packed [⟨basename "/tmp/b.txt", TarType.fileEntry, [10, 20]⟩])]⟩ :=
  putArchive_root_no_rejection fsCopy "/tmp/b.txt" [10, 20] (by decide) (by decide)

/-- Claim C7 (counterexample): for the two-entry payload
`["dir/", "dir/child.txt"]` under remote path `/dir`, single-file extraction
does NOT fail with the RemoteIsDirectory kind. -/
theorem getArchive_dirpair_counterexample :
    (getArchive (Except.ok statDir) (Except.ok membersDirPair) fsTmp "/dir"
        (some "/tmp/out")).result ≠
      GetResult.failed GError.remoteIsDirectory := by decide

/-- Claim C7 (amended): for the two-entry payload `["dir/", "dir/child.txt"]`
under remote path `/dir`, single-file extraction fails with the
AmbiguousArchive kind: the multi-entry gate runs before member matching, and
the second entry is not named `dir`. -/
theorem getArchive_dirpair_ambiguous (fs : LocalFS) (lp : String) :
    (getArchive (Except.ok statDir) (Except.ok membersDirPair) fs "/dir" (some lp)).result =
      GetResult.failed GError.ambiguousArchive := by
  have hc : 1 < membersDirPair.length ∧
      specialPair membersDirPair (basename "/dir") = false := by decide
  simp only [membersDirPair] at hc
  simp only [getArchive, membersDirPair]
  rw [if_pos hc]

/-- Claim C8: `get_archive` always calls the metadata endpoint first, and if
that call fails the error propagates unchanged, the data-fetch endpoint is
never invoked, and the local filesystem is untouched. -/
theorem getArchive_metadata_first
    (headRes : Except RemoteErr ArchiveStat) (getRes : Except RemoteErr (List TarMember))
    (fs : LocalFS) (path : String) (lp : Option String) :
    (getArchive headRes getRes fs path lp).calls.head? = some (ApiCall.headCall path)
    ∧ (∀ e, headRes = Except.error e →
        getArchive headRes getRes fs path lp =
          ⟨GetResult.failed (GError.remote e), fs, [ApiCall.headCall path]⟩) := by
  constructor
  · exact getArchive_calls_head_aux headRes getRes fs path lp
  · intro e he
    subst he
    simp [getArchive]

theorem getArchive_metadata_first_witness :
    getArchive (Except.error RemoteErr.notFound) (Except.ok membersB) fsTmp
        "/x/report.txt" (some "/tmp/out.txt") =
      ⟨GetResult.failed (GError.remote RemoteErr.notFound), fsTmp,
        [ApiCall.headCall "/x/report.txt"]⟩ :=
  (getArchive_metadata_first (Except.error RemoteErr.notFound) (Except.ok membersB) fsTmp
    "/x/report.txt" (some "/tmp/out.txt")).2 RemoteErr.notFound rfl

/-- Claim C9: when the copy target has no directory component, its parent
directory counts as existing locally, so `copy` never uploads: an existing
local source is ambiguous, and otherwise the call downloads. -/
theorem copy_bare_target_never_uploads
    (fs : LocalFS) (source target : String) (h : dirname target = "") :
    (fs.pathExists source = true →
      copyRoute fs source target = CopyRoute.ambiguousDirection)
    ∧ (fs.pathExists source = false →
      copyRoute fs source target = CopyRoute.download source target) := by
  have ht : targetDirExistsLocal fs target = true := by
    simp [targetDirExistsLocal, h]
  constructor <;> intro hs <;> simp [copyRoute, hs, ht]

theorem copy_bare_target_never_uploads_witness :
    (copyRoute fsCopy "/tmp/b.txt" "b.txt" = CopyRoute.ambiguousDirection)
    ∧ (copyRoute fsCopy "/a/b.txt" "b.txt" = CopyRoute.download "/a/b.txt" "b.txt") :=
  ⟨(copy_bare_target_never_uploads fsCopy "/tmp/b.txt" "b.txt" (by decide)).1 (by decide),
   (copy_bare_target_never_uploads fsCopy "/a/b.txt" "b.txt" (by decide)).2 (by decide)⟩

/-- Claim C10: with `local_path` whose directory component is non-empty, the
parent directory is created before the tar payload is inspected, so it exists
in the resulting local filesystem whatever the outcome — including the
EmptyArchive, AmbiguousArchive, RemoteIsDirectory and MemberNotFound
failures. -/
theorem getArchive_creates_parent_dirs
    (stats : ArchiveStat) (members : List TarMember) (fs : LocalFS) (path lp : String)
    (h : dirname lp ≠ "") :
    (getArchive (Except.ok stats) (Except.ok members) fs path
        (some lp)).fs.dirs.contains (dirname lp) = true := by
  have hb : (dirname lp == "") = false := by
    simp [h]
  cases members with
  | nil =>
    simp only [getArchive, hb]
    simpa using makedirs_contains fs (dirname lp)
  | cons m0 rest =>
    simp only [getArchive, hb]
    split
    · simpa using makedirs_contains fs (dirname lp)
    · split
      · simpa [LocalFS.writeFile] using makedirs_contains fs (dirname lp)
      · split
        · simpa using makedirs_contains fs (dirname lp)
        · simpa using makedirs_contains fs (dirname lp)

theorem getArchive_creates_parent_dirs_witness :
    (getArchive (Except.ok statReport) (Except.ok ([] : List TarMember))
        ⟨[], []⟩ "/x/report.txt" (some "/tmp/out.txt")).fs.dirs.contains
      (dirname "/tmp/out.txt") = true :=
  getArchive_creates_parent_dirs statReport [] ⟨[], []⟩ "/x/report.txt" "/tmp/out.txt"
    (by decide)

end GBox
